import Mathlib

/-!
Shallow embedding of `regionset.go` (package `text`): a `RegionSet` manages a
sequence of regions, merging overlapping ones, and notifies keyed `onChange`
callbacks after every mutation.  The `Region` primitive (`region.go`) is not
among the sources at hand and is modelled from the specification.  Go slices
become `List`, the mutex is irrelevant to the functional state, the callback
registry `map[string]func()` is modelled by its set of keys, and each mutating
operation additionally returns its notification log: one entry per `onChange()`
dispatch on the receiver, each entry listing the callback keys invoked by that
dispatch.
-/

/-- Modelled from the spec: the interval primitive (`region.go`, absent from
the sources).  A region carries two endpoint coordinates `A`, `B`, possibly in
reversed orientation; equality is value equality on the pair. -/
structure Region where
  A : Int
  B : Int
deriving DecidableEq, Repr, Inhabited

namespace Region

/-- Modelled from the spec: the smaller, ordered "begin" coordinate. -/
def Begin (r : Region) : Int := min r.A r.B

/-- Modelled from the spec: the larger, ordered "end" coordinate. -/
def End (r : Region) : Int := max r.A r.B

/-- Modelled from the spec: a region is empty iff its begin and end agree. -/
def Empty (r : Region) : Bool := decide (r.Begin = r.End)

/-- Modelled from the spec: point containment in the closed span. -/
def Contains (r : Region) (point : Int) : Bool :=
  decide (r.Begin ≤ point) && decide (point ≤ r.End)

/-- Modelled from the spec: `r` covers `s` iff `r`'s extent fully contains
`s`'s extent. -/
def Covers (r s : Region) : Bool :=
  decide (r.Begin ≤ s.Begin) && decide (s.End ≤ r.End)

/-- Modelled from the spec: two regions intersect iff they are equal or share
a span of positive width; regions that merely touch at an endpoint do not
intersect (adjacency must not trigger merging). -/
def Intersects (r s : Region) : Bool :=
  decide (r = s) || decide (max r.Begin s.Begin < min r.End s.End)

/-- Modelled from the spec: union, the smallest region covering both. -/
def Cover (r s : Region) : Region :=
  ⟨min r.Begin s.Begin, max r.End s.End⟩

/-- Modelled from the spec: difference, producing the left and/or right
remainder of `r` not covered by `s` (0 to 2 regions). -/
def Cut (r s : Region) : List Region :=
  (if r.Begin < s.Begin then [⟨r.Begin, min r.End s.Begin⟩] else []) ++
  (if s.End < r.End then [⟨max r.Begin s.End, r.End⟩] else [])

end Region

/-- State of a Go `RegionSet`: the region slice plus the keys of the
registered `onChange` callbacks. -/
structure RegionSet where
  regions : List Region
  callbacks : List String
deriving DecidableEq, Repr, Inhabited

namespace RegionSet

/-- The Go zero value: empty sequence, no callbacks registered. -/
def empty : RegionSet := ⟨[], []⟩

/-- `overlaps` (regionset.go): the indices `i` in `[start, stop)` whose region
is equal to, intersects, or is covered by `reference`. -/
def overlaps (regs : List Region) (reference : Region) (start stop : Nat) : List Nat :=
  (List.range' start (stop - start)).filter fun i =>
    decide (reference = regs.getD i default) ||
    reference.Intersects (regs.getD i default) ||
    reference.Covers (regs.getD i default)

/-- Go's `copy(xs[d:], src)`: overwrite `xs` from position `d` with as much of
`src` as fits, leaving the length unchanged. -/
def goCopy (xs : List Region) (d : Nat) (src : List Region) : List Region :=
  let m := min src.length (xs.length - d)
  xs.take d ++ src.take m ++ xs.drop (d + m)

/-- `merge` (regionset.go): union every region listed in `mg` into index
`reference`, then run the Go removal loop (`j2 := len - adj` or
`merge[i+1] - 1`, conditional `copy`, final truncation) exactly as written.
All call sites keep the indices in range, so `getD` defaults are never hit. -/
def merge (regs : List Region) (reference : Nat) (mg : List Nat) : List Region :=
  let covered := mg.foldl
    (fun acc j =>
      acc.set reference ((acc.getD reference default).Cover (acc.getD j default)))
    regs
  let n := covered.length
  let l := mg.length - 1
  let compacted := (List.range mg.length).foldl
    (fun acc i =>
      let j1 := mg.getD i 0
      let adj := i
      let j2 := if i < l then mg.getD (i + 1) 0 - 1 else n - adj
      if 0 < j2 ∧ j1 + 1 ≤ j2 then
        goCopy acc (j1 - adj) ((acc.drop (j1 + 1)).take (j2 - (j1 + 1)))
      else acc)
    covered
  compacted.take (n - mg.length)

/-- The loop of `flush` (regionset.go): scan positions left to right and merge
each region overlapping something in the prefix before it.  The Go loop
`for i := 1; i < len(r.regions); i++` is driven by explicit fuel; the sequence
never grows and `i` only increases, so `length + 1` units always suffice. -/
def flushLoop : Nat → List Region → Nat → List Region
  | 0, regs, _ => regs
  | fuel + 1, regs, i =>
    if i < regs.length then
      match overlaps regs (regs.getD i default) 0 i with
      | [] => flushLoop fuel regs (i + 1)
      | o :: os => flushLoop fuel (merge regs o (os ++ [i])) (i + 1)
    else regs

/-- `flush` (regionset.go) restricted to its effect on the region sequence;
its final `onChange` dispatch is accounted for in each caller's log. -/
def flush (regs : List Region) : List Region := flushLoop (regs.length + 1) regs 1

/-- `Add` (regionset.go): overlap-scan against the current sequence, append,
targeted merge when overlaps were found; one `onChange` dispatch. -/
def Add (r : RegionSet) (r2 : Region) : RegionSet × List (List String) :=
  let ov := overlaps r.regions r2 0 r.regions.length
  let regs := r.regions ++ [r2]
  let regs :=
    match ov with
    | [] => regs
    | ref :: rest => merge regs ref (rest ++ [regs.length - 1])
  ({ r with regions := regs }, [r.callbacks])

/-- Fold `Add` over a list of regions, one public call at a time. -/
def addMany (r : RegionSet) (rs : List Region) : RegionSet :=
  rs.foldl (fun acc x => (acc.Add x).1) r

/-- `Clear` (regionset.go): truncate to empty, then `flush`; the flush's
`onChange` is the single dispatch. -/
def Clear (r : RegionSet) : RegionSet × List (List String) :=
  ({ r with regions := flush [] }, [r.callbacks])

/-- `AddAll` (regionset.go): coalesce the incoming batch with a scratch set's
`flush` (the scratch set carries no callbacks, so its inner dispatch invokes
nothing), append the result, then merge each batch region against the
pre-existing prefix, shrinking `start` as entries are removed; a single
`onChange` dispatch on the receiver at the end. -/
def AddAll (r : RegionSet) (rs : List Region) : RegionSet × List (List String) :=
  let rs := flush rs
  let start := r.regions.length
  let regs := r.regions ++ rs
  let step := fun (st : List Region × Nat) (r2 : Region) =>
    let (regs, start) := st
    match overlaps regs r2 0 start with
    | [] => (regs, start)
    | ref :: rest =>
      let ovm := rest ++ [regs.length - 1]
      (merge regs ref ovm, start - ovm.length)
  ({ r with regions := (rs.foldl step (regs, start)).1 }, [r.callbacks])

/-- `Contains` (regionset.go): some stored region equals `r2`, or
point-contains both of `r2`'s ordered endpoints. -/
def Contains (r : RegionSet) (r2 : Region) : Bool :=
  r.regions.any fun s =>
    decide (s = r2) || (s.Contains r2.Begin && s.Contains r2.End)

/-- `Len` (regionset.go). -/
def Len (r : RegionSet) : Nat := r.regions.length

/-- `Get` (regionset.go): Go's `r.regions[i]`; an index outside `[0, len)`
panics at runtime, modelled as `none`. -/
def Get (r : RegionSet) (i : Int) : Option Region :=
  if 0 ≤ i ∧ i < (r.Len : Int) then some (r.regions.getD i.toNat default)
  else none

/-- `HasNonEmpty` (regionset.go): some stored region is non-empty. -/
def HasNonEmpty (r : RegionSet) : Bool := r.regions.any fun s => !s.Empty

/-- `HasEmpty` (regionset.go): despite its comment claiming to return "the
opposite of HasNonEmpty", the body is its own existence scan. -/
def HasEmpty (r : RegionSet) : Bool := r.regions.any fun s => s.Empty

/-- `Cut` (regionset.go): build a fresh set by `Add`ing every non-empty
remainder of cutting `r2` out of each stored region.  The method never writes
the receiver and never calls the receiver's `onChange`; the result triple is
(receiver after the call, the new set, the receiver's notification log). -/
def Cut (r : RegionSet) (r2 : Region) : RegionSet × RegionSet × List (List String) :=
  let ret := r.regions.foldl
    (fun ret reg =>
      (Region.Cut reg r2).foldl
        (fun ret xor => if xor.Empty then ret else (ret.Add xor).1) ret)
    ⟨[], []⟩
  (r, ret, [])

/-- `Subtract` (regionset.go): replace the sequence with `Cut`'s result; one
`onChange` dispatch. -/
def Subtract (r : RegionSet) (r2 : Region) : RegionSet × List (List String) :=
  let r3 := (r.Cut r2).2.1
  ({ r with regions := r3.regions }, [r.callbacks])

/-- The behaviour `merge` is specified to have: the target entry becomes the
repeated pairwise union of itself with every listed entry, exactly the listed
entries disappear, and every other entry keeps its relative order. -/
def mergeSpec (regs : List Region) (reference : Nat) (mg : List Nat) : List Region :=
  let covered := regs.set reference
    (mg.foldl (fun acc j => acc.Cover (regs.getD j default)) (regs.getD reference default))
  (covered.enum.filter fun p => decide (p.1 ∉ mg)).map Prod.snd

end RegionSet

section Helpers

/-- `Add` never touches the callback registry. -/
theorem RegionSet.Add_callbacks (r : RegionSet) (x : Region) :
    ((r.Add x).1).callbacks = r.callbacks := rfl

/-- Folding `Add` over a list never touches the callback registry. -/
theorem RegionSet.foldlAdd_callbacks :
    ∀ (l : List Region) (s : RegionSet),
      (l.foldl (fun acc t => (acc.Add t).1) s).callbacks = s.callbacks := by
  intro l
  induction l with
  | nil => intro s; rfl
  | cons a l ih => intro s; rw [List.foldl_cons, ih, RegionSet.Add_callbacks]

/-- Folding `Add` over the non-empty elements equals the filtered fold. -/
theorem RegionSet.filter_fold_add :
    ∀ (ts : List Region) (s : RegionSet),
      ((ts.filter fun t => !t.Empty).foldl (fun acc t => (acc.Add t).1) s) =
        ts.foldl (fun ret xor => if xor.Empty then ret else (ret.Add xor).1) s := by
  intro ts
  induction ts with
  | nil => intro s; rfl
  | cons a ts ih =>
    intro s
    cases h : a.Empty <;> simp [List.filter_cons, h, ih]

/-- A fold over a flat map is the nested fold. -/
theorem RegionSet.foldl_flatMap_fold {α β γ : Type} (g : α → List β) (f : γ → β → γ) :
    ∀ (l : List α) (s : γ),
      ((l.flatMap g).foldl f s) = l.foldl (fun acc a => (g a).foldl f acc) s := by
  intro l
  induction l with
  | nil => intro s; rfl
  | cons a l ih => intro s; simp [List.foldl_append, ih]

/-- Reduction of `merge` on a two-element sequence merging index 1 into
index 0 (the shape produced by `Add` on a one-region set). -/
theorem RegionSet.merge_pair (a b : Region) :
    RegionSet.merge [a, b] 0 [1] = [a.Cover b] := by
  simp [RegionSet.merge, RegionSet.goCopy, List.range_succ]

/-- The nested loop of `Cut` builds the same set as `Add`ing the flattened
list of non-empty remainders. -/
theorem RegionSet.cut_build (x : Region) :
    ∀ (l : List Region) (s : RegionSet),
      ((l.flatMap fun reg => (Region.Cut reg x).filter fun t => !t.Empty).foldl
          (fun acc t => (acc.Add t).1) s) =
        l.foldl
          (fun ret reg =>
            (Region.Cut reg x).foldl
              (fun ret xor => if xor.Empty then ret else (ret.Add xor).1) ret) s := by
  intro l
  induction l with
  | nil => intro s; rfl
  | cons a l ih =>
    intro s
    simp only [List.flatMap_cons, List.foldl_append, List.foldl_cons]
    rw [RegionSet.filter_fold_add, ih]

end Helpers

section Claims

/-- C1: after a sequence of public `Add` calls, every pair of distinct stored
regions is supposed to neither intersect nor cover one another.  The code
violates this: adding the five mutually non-overlapping regions `[0,1]`,
`[2,4]`, `[20,21]`, `[5,7]`, `[30,31]` and then `[3,6]` (which overlaps
`[2,4]` and `[5,7]`) leaves `[2,7]` and `[5,7]` both stored, which intersect
and one covers the other; the unrelated `[30,31]` is silently dropped. -/
theorem add_sequence_breaks_nonoverlap_invariant :
    (RegionSet.addMany RegionSet.empty
        [⟨0,1⟩, ⟨2,4⟩, ⟨20,21⟩, ⟨5,7⟩, ⟨30,31⟩, ⟨3,6⟩]).regions =
      [⟨0,1⟩, ⟨2,7⟩, ⟨20,21⟩, ⟨5,7⟩] ∧
    Region.Intersects ⟨2,7⟩ ⟨5,7⟩ = true ∧
    Region.Covers ⟨2,7⟩ ⟨5,7⟩ = true := by decide

/-- C2: `merge(target, indices)` is supposed to replace the target by the
repeated pairwise union and delete exactly the indexed entries.  On the
sequence `[[0,1],[2,4],[20,21],[5,7],[30,31],[3,6]]` with target `1` and
indices `[3,5]` the code instead keeps the merged-away entry `[5,7]` and
deletes the untouched entry `[30,31]`. -/
theorem merge_compaction_diverges_from_spec :
    RegionSet.merge [⟨0,1⟩, ⟨2,4⟩, ⟨20,21⟩, ⟨5,7⟩, ⟨30,31⟩, ⟨3,6⟩] 1 [3, 5] =
      [⟨0,1⟩, ⟨2,7⟩, ⟨20,21⟩, ⟨5,7⟩] ∧
    RegionSet.mergeSpec [⟨0,1⟩, ⟨2,4⟩, ⟨20,21⟩, ⟨5,7⟩, ⟨30,31⟩, ⟨3,6⟩] 1 [3, 5] =
      [⟨0,1⟩, ⟨2,7⟩, ⟨20,21⟩, ⟨30,31⟩] ∧
    RegionSet.merge [⟨0,1⟩, ⟨2,4⟩, ⟨20,21⟩, ⟨5,7⟩, ⟨30,31⟩, ⟨3,6⟩] 1 [3, 5] ≠
      RegionSet.mergeSpec [⟨0,1⟩, ⟨2,4⟩, ⟨20,21⟩, ⟨5,7⟩, ⟨30,31⟩, ⟨3,6⟩] 1 [3, 5] := by
  decide

/-- C3: `AddAll([A,B,C])` on an empty set is supposed to equal three `Add`
calls in any order.  With `A = [0,3]`, `B = [2,4]`, `C = [3,10]`, every one of
the six sequential orders yields the single region `[0,10]`, while `AddAll`
yields the two still-overlapping regions `[0,4]` and `[3,10]` (its batch
pre-coalescing pass never compares `[3,10]` with the freshly merged
`[0,4]`). -/
theorem addAll_diverges_from_sequential_adds :
    (RegionSet.empty.AddAll [⟨0,3⟩, ⟨2,4⟩, ⟨3,10⟩]).1.regions = [⟨0,4⟩, ⟨3,10⟩] ∧
    (RegionSet.addMany RegionSet.empty [⟨0,3⟩, ⟨2,4⟩, ⟨3,10⟩]).regions = [⟨0,10⟩] ∧
    (RegionSet.addMany RegionSet.empty [⟨0,3⟩, ⟨3,10⟩, ⟨2,4⟩]).regions = [⟨0,10⟩] ∧
    (RegionSet.addMany RegionSet.empty [⟨2,4⟩, ⟨0,3⟩, ⟨3,10⟩]).regions = [⟨0,10⟩] ∧
    (RegionSet.addMany RegionSet.empty [⟨2,4⟩, ⟨3,10⟩, ⟨0,3⟩]).regions = [⟨0,10⟩] ∧
    (RegionSet.addMany RegionSet.empty [⟨3,10⟩, ⟨0,3⟩, ⟨2,4⟩]).regions = [⟨0,10⟩] ∧
    (RegionSet.addMany RegionSet.empty [⟨3,10⟩, ⟨2,4⟩, ⟨0,3⟩]).regions = [⟨0,10⟩] := by
  decide

/-- C4: starting empty, `Add([1,3]); Add([5,8]); Add([2,6])` stores exactly
`[1,8]`, and a subsequent `Subtract([4,5])` stores exactly `[1,4]` and
`[5,8]`. -/
theorem concrete_scenario_holds :
    (RegionSet.addMany RegionSet.empty [⟨1,3⟩, ⟨5,8⟩, ⟨2,6⟩]).regions = [⟨1,8⟩] ∧
    ((RegionSet.addMany RegionSet.empty [⟨1,3⟩, ⟨5,8⟩, ⟨2,6⟩]).Subtract ⟨4,5⟩).1.regions =
      [⟨1,4⟩, ⟨5,8⟩] := by decide

/-- C5 (counterexample): `[5,5]` and `[5,7]` share only the endpoint `5` and
have no overlapping interiors, yet `Add([5,5]); Add([5,7])` leaves a single
stored region, not two: the added `[5,7]` covers the stored point region. -/
theorem adjacent_point_region_merges :
    ((RegionSet.empty.Add ⟨5,5⟩).1.Add ⟨5,7⟩).1.regions = [⟨5,7⟩] ∧
    ((RegionSet.empty.Add ⟨5,5⟩).1.Add ⟨5,7⟩).1.regions.length ≠ 2 := by decide

/-- C5 (amended): on an empty set, adding any region twice leaves exactly one
stored region; adding two non-empty regions that share only an endpoint
leaves both stored, distinct and unmerged. -/
theorem add_twice_merges_nonempty_adjacent_stay (z x y : Region)
    (hx : x.Begin < x.End) (hy : y.Begin < y.End)
    (hadj : x.End = y.Begin ∨ y.End = x.Begin) :
    ((RegionSet.empty.Add z).1.Add z).1.regions.length = 1 ∧
    x ≠ y ∧
    ((RegionSet.empty.Add x).1.Add y).1.regions = [x, y] := by
  have hfst : ∀ w : Region, (RegionSet.empty.Add w).1 = ⟨[w], []⟩ := fun w => rfl
  have hne : ¬ (y = x) := by
    intro he
    rcases hadj with h | h <;> (subst he; omega)
  refine ⟨?_, fun he => hne he.symm, ?_⟩
  · have hov : RegionSet.overlaps [z] z 0 1 = [0] := by
      simp [RegionSet.overlaps, List.filter]
    rw [hfst]
    simp [RegionSet.Add, hov, RegionSet.merge_pair]
  · have hni : Region.Intersects y x = false := by
      simp only [Region.Intersects, Bool.or_eq_false_iff, decide_eq_false_iff_not]
      refine ⟨hne, ?_⟩
      rcases hadj with h | h <;> omega
    have hnc : Region.Covers y x = false := by
      simp only [Region.Covers, Bool.and_eq_false_iff, decide_eq_false_iff_not]
      rcases hadj with h | h
      · left; omega
      · right; omega
    have hov : RegionSet.overlaps [x] y 0 1 = [] := by
      simp [RegionSet.overlaps, List.filter, hne, hni, hnc]
    rw [hfst]
    simp [RegionSet.Add, hov]

/-- C5 (witness): the amended statement at `z = [1,2]`, `x = [0,5]`,
`y = [5,7]`. -/
theorem add_twice_merges_nonempty_adjacent_stay_witness :
    ((RegionSet.empty.Add ⟨1,2⟩).1.Add ⟨1,2⟩).1.regions.length = 1 ∧
    (⟨0,5⟩ : Region) ≠ ⟨5,7⟩ ∧
    ((RegionSet.empty.Add ⟨0,5⟩).1.Add ⟨5,7⟩).1.regions = [⟨0,5⟩, ⟨5,7⟩] :=
  add_twice_merges_nonempty_adjacent_stay ⟨1,2⟩ ⟨0,5⟩ ⟨5,7⟩
    (by decide) (by decide) (Or.inl (by decide))

/-- C6: `Cut` leaves the receiver's stored sequence and registered callbacks
unchanged, dispatches none of the receiver's callbacks, and returns a set
whose callback registry is empty and whose regions result from `Add`ing every
non-empty remainder of cutting `x` out of each stored region. -/
theorem cut_is_pure_and_detached (r : RegionSet) (x : Region) :
    (r.Cut x).1 = r ∧
    (r.Cut x).2.2 = ([] : List (List String)) ∧
    ((r.Cut x).2.1).callbacks = [] ∧
    (r.Cut x).2.1 =
      ((r.regions.flatMap fun reg => (Region.Cut reg x).filter fun t => !t.Empty).foldl
        (fun acc t => (acc.Add t).1) ⟨[], []⟩) := by
  have h4 : (r.Cut x).2.1 =
      ((r.regions.flatMap fun reg => (Region.Cut reg x).filter fun t => !t.Empty).foldl
        (fun acc t => (acc.Add t).1) (⟨[], []⟩ : RegionSet)) :=
    (RegionSet.cut_build x r.regions ⟨[], []⟩).symm
  refine ⟨rfl, rfl, ?_, h4⟩
  rw [h4, RegionSet.foldlAdd_callbacks]

/-- C6 (witness): the statement at a one-region set with a callback. -/
theorem cut_is_pure_and_detached_witness :
    ((⟨[⟨1,8⟩], ["k"]⟩ : RegionSet).Cut ⟨4,5⟩).1 = ⟨[⟨1,8⟩], ["k"]⟩ ∧
    ((⟨[⟨1,8⟩], ["k"]⟩ : RegionSet).Cut ⟨4,5⟩).2.2 = ([] : List (List String)) ∧
    (((⟨[⟨1,8⟩], ["k"]⟩ : RegionSet).Cut ⟨4,5⟩).2.1).callbacks = [] :=
  ⟨(cut_is_pure_and_detached ⟨[⟨1,8⟩], ["k"]⟩ ⟨4,5⟩).1,
   (cut_is_pure_and_detached ⟨[⟨1,8⟩], ["k"]⟩ ⟨4,5⟩).2.1,
   (cut_is_pure_and_detached ⟨[⟨1,8⟩], ["k"]⟩ ⟨4,5⟩).2.2.1⟩

/-- C7: `Clear` on an already empty set still dispatches exactly one
notification invoking every registered callback (and leaves the sequence
empty), and a single `AddAll` dispatches exactly one notification on the
receiver regardless of how many merges happen inside. -/
theorem clear_and_addAll_notify_once (r : RegionSet) (rs : List Region) :
    (r.regions = [] → (r.Clear).2 = [r.callbacks] ∧ (r.Clear).1.regions = []) ∧
    (r.AddAll rs).2 = [r.callbacks] :=
  ⟨fun _ => ⟨rfl, rfl⟩, rfl⟩

/-- C7 (witness): the statement at an empty set with one callback key. -/
theorem clear_and_addAll_notify_once_witness :
    (RegionSet.Clear ⟨[], ["k"]⟩).2 = [["k"]] ∧
    (RegionSet.AddAll ⟨[], ["k"]⟩ [⟨0,1⟩]).2 = [["k"]] :=
  ⟨((clear_and_addAll_notify_once ⟨[], ["k"]⟩ [⟨0,1⟩]).1 rfl).1,
   (clear_and_addAll_notify_once ⟨[], ["k"]⟩ [⟨0,1⟩]).2⟩

/-- C8: `Contains` returns true iff some stored region equals the argument or
point-contains both of its ordered endpoint coordinates. -/
theorem contains_endpoint_characterisation (r : RegionSet) (x : Region) :
    r.Contains x = true ↔
      ∃ s ∈ r.regions,
        s = x ∨ (s.Contains x.Begin = true ∧ s.Contains x.End = true) := by
  simp [RegionSet.Contains, List.any_eq_true]

/-- C8 (witness): `[2,3]` is contained in a set storing `[1,5]`. -/
theorem contains_endpoint_characterisation_witness :
    ∃ s ∈ (⟨[⟨1,5⟩], []⟩ : RegionSet).regions,
      s = (⟨2,3⟩ : Region) ∨
        (Region.Contains s (Region.Begin ⟨2,3⟩) = true ∧
         Region.Contains s (Region.End ⟨2,3⟩) = true) :=
  (contains_endpoint_characterisation ⟨[⟨1,5⟩], []⟩ ⟨2,3⟩).mp (by decide)

/-- C9: `Get i` yields the stored region at position `i` when
`0 ≤ i < Len`, and fails (Go: panics, modelled as `none`) for every other
`i`. -/
theorem get_in_range_else_fatal (r : RegionSet) (i : Int) :
    (0 ≤ i ∧ i < (r.Len : Int) → r.Get i = some (r.regions.getD i.toNat default)) ∧
    (¬ (0 ≤ i ∧ i < (r.Len : Int)) → r.Get i = none) := by
  constructor
  · intro h; unfold RegionSet.Get; rw [if_pos h]
  · intro h; unfold RegionSet.Get; rw [if_neg h]

/-- C9 (witness): the statement at a one-region set, indices `0` and `5`. -/
theorem get_in_range_else_fatal_witness :
    RegionSet.Get ⟨[⟨1,2⟩], []⟩ 0 = some ⟨1,2⟩ ∧
    RegionSet.Get ⟨[⟨1,2⟩], []⟩ 5 = none :=
  ⟨(get_in_range_else_fatal ⟨[⟨1,2⟩], []⟩ 0).1 (by decide),
   (get_in_range_else_fatal ⟨[⟨1,2⟩], []⟩ 5).2 (by decide)⟩

/-- C10: on an empty sequence `HasNonEmpty` and `HasEmpty` are both false;
each is its own existence scan (some stored region is non-empty / empty), so
they are not logical opposites of one another. -/
theorem hasNonEmpty_hasEmpty_independent (r : RegionSet) :
    (r.regions = [] → r.HasNonEmpty = false ∧ r.HasEmpty = false) ∧
    (r.HasNonEmpty = true ↔ ∃ s ∈ r.regions, s.Empty = false) ∧
    (r.HasEmpty = true ↔ ∃ s ∈ r.regions, s.Empty = true) := by
  refine ⟨fun h => ?_, ?_, ?_⟩
  · simp [RegionSet.HasNonEmpty, RegionSet.HasEmpty, h]
  · simp [RegionSet.HasNonEmpty, List.any_eq_true]
  · simp [RegionSet.HasEmpty, List.any_eq_true]

/-- C10 (witness): the statement at the empty set. -/
theorem hasNonEmpty_hasEmpty_independent_witness :
    RegionSet.HasNonEmpty ⟨[], ["k"]⟩ = false ∧
    RegionSet.HasEmpty ⟨[], ["k"]⟩ = false :=
  (hasNonEmpty_hasEmpty_independent ⟨[], ["k"]⟩).1 rfl

end Claims

